import Mathlib

/-!
Shallow embedding of `libctru/include/3ds/os.h` (zoogie/libctru).

Machine integers are modelled as `Nat` with explicit reduction modulo `2^64`
(for `u64`) or `2^32` (for `u32`) exactly where the C arithmetic wraps; C
`double` arithmetic is idealized as exact rational arithmetic over `ℚ`.
Reads of memory-mapped registers are modelled by passing an explicit memory
environment `env : Nat → Nat` (address to stored value), and the external
system calls (`svcGetSystemTick`, `svcGetSystemInfo`) by passing their return
values as explicit parameters.
-/

namespace Libctru

/-- `#define SYSCLOCK_SOC (16756991)` (os.h line 8). -/
def SYSCLOCK_SOC : Nat := 16756991

/-- `#define SYSCLOCK_ARM9 (SYSCLOCK_SOC * 8)` (os.h line 9). -/
def SYSCLOCK_ARM9 : Nat := SYSCLOCK_SOC * 8

/-- `#define SYSCLOCK_ARM11 (SYSCLOCK_ARM9 * 2)` (os.h line 10). -/
def SYSCLOCK_ARM11 : Nat := SYSCLOCK_ARM9 * 2

/-- `#define SYSCLOCK_ARM11_NEW (SYSCLOCK_ARM11 * 3)` (os.h line 11). -/
def SYSCLOCK_ARM11_NEW : Nat := SYSCLOCK_ARM11 * 3

/-- `#define CPU_TICKS_PER_MSEC (SYSCLOCK_ARM11 / 1000.0)` (os.h line 13),
with the C `double` division idealized as exact division in `ℚ`. -/
def CPU_TICKS_PER_MSEC : ℚ := (SYSCLOCK_ARM11 : ℚ) / 1000

/-- The `TickCounter` struct (os.h lines 60-64): `u64 elapsed; u64 reference;`.
Both fields are `u64` values, represented as naturals below `2^64`. -/
structure TickCounter where
  elapsed : Nat
  reference : Nat

/-- `osTickCounterStart` (os.h lines 185-188): `cnt->reference =
svcGetSystemTick();`. The tick value returned by `svcGetSystemTick` is the
`tick` parameter. -/
def osTickCounterStart (tick : Nat) (cnt : TickCounter) : TickCounter :=
  { cnt with reference := tick }

/-- `osTickCounterUpdate` (os.h lines 194-199): `u64 now = svcGetSystemTick();
cnt->elapsed = now - cnt->reference; cnt->reference = now;`. The unsigned
64-bit subtraction `now - reference` is `(now + 2^64 - reference) % 2^64`
whenever `reference < 2^64`. -/
def osTickCounterUpdate (tick : Nat) (cnt : TickCounter) : TickCounter :=
  { elapsed := (tick + 2^64 - cnt.reference) % 2^64, reference := tick }

/-- Modelled from the spec: the body of `osTickCounterRead` is not under
`src/` (os.h line 206 only declares it). Spec §4.1: "`read(counter)`:
converts `elapsed` ticks to milliseconds by dividing by the fixed number of
clock ticks per millisecond"; the header constant is `CPU_TICKS_PER_MSEC`. -/
def osTickCounterRead (cnt : TickCounter) : ℚ :=
  (cnt.elapsed : ℚ) / CPU_TICKS_PER_MSEC

/-- C1: starting a tick counter when the source reads `t0` and updating when
it reads `t1 ≥ t0` leaves `elapsed = t1 - t0`; a second update at `t2 ≥ t1`
leaves `elapsed = t2 - t1`, each interval measured independently because
update stores the current tick as the new reference. -/
theorem C1_start_update_elapsed (t0 t1 t2 : Nat) (c : TickCounter)
    (h01 : t0 ≤ t1) (h12 : t1 ≤ t2) (h2 : t2 < 2^64) :
    (osTickCounterUpdate t1 (osTickCounterStart t0 c)).elapsed = t1 - t0 ∧
    (osTickCounterUpdate t2 (osTickCounterUpdate t1 (osTickCounterStart t0 c))).elapsed
      = t2 - t1 := by
  have hp : (2:Nat)^64 = 18446744073709551616 := by norm_num
  simp only [osTickCounterStart, osTickCounterUpdate, hp]
  omega

/-- C1 witness: concrete run with tick samples 3, 10, 25. -/
theorem C1_start_update_elapsed_witness :
    (osTickCounterUpdate 10 (osTickCounterStart 3 ⟨0, 0⟩)).elapsed = 7 ∧
    (osTickCounterUpdate 25 (osTickCounterUpdate 10 (osTickCounterStart 3 ⟨0, 0⟩))).elapsed
      = 15 := by
  simpa using C1_start_update_elapsed 3 10 25 ⟨0, 0⟩ (by norm_num) (by norm_num) (by norm_num)

/-- C2: if the tick source wraps modulo `2^64`, so the raw sample taken after
a forward advance of `d` ticks from reference `r` is `(r + d) % 2^64`
(numerically smaller than `r` when the wrap occurred), the unsigned
subtraction in `osTickCounterUpdate` still yields `elapsed = d % 2^64`, the
forward-elapsed tick count modulo `2^64`. -/
theorem C2_update_wraparound (r d : Nat) (c : TickCounter) (hr : r < 2^64) :
    (osTickCounterUpdate ((r + d) % 2^64) { c with reference := r }).elapsed = d % 2^64 := by
  have hp : (2:Nat)^64 = 18446744073709551616 := by norm_num
  simp only [osTickCounterUpdate, hp]
  omega

/-- C2 witness: reference `2^64 - 1`, forward advance 5 ticks, wrapped raw
sample 4; the unsigned subtraction recovers elapsed = 5. -/
theorem C2_update_wraparound_witness :
    (osTickCounterUpdate ((18446744073709551615 + 5) % 2^64)
      { elapsed := 0, reference := 18446744073709551615 }).elapsed = 5 := by
  simpa using C2_update_wraparound 18446744073709551615 5 ⟨0, 0⟩ (by norm_num)

/-- C3: `osTickCounterStart` overwrites only the `reference` field, setting it
to the current tick value, and leaves `elapsed` unchanged. -/
theorem C3_start_frame (tick : Nat) (c : TickCounter) :
    (osTickCounterStart tick c).elapsed = c.elapsed ∧
    (osTickCounterStart tick c).reference = tick :=
  ⟨rfl, rfl⟩

/-- C4: with `elapsed = 268111856` ticks, `osTickCounterRead` returns exactly
1000 milliseconds, because the conversion divides by `CPU_TICKS_PER_MSEC`,
which equals `268111856 / 1000` (the header derives it from `SYSCLOCK_ARM11 =
16756991 * 8 * 2 = 268111856` ticks per second). -/
theorem C4_read_one_second (c : TickCounter) (h : c.elapsed = 268111856) :
    osTickCounterRead c = 1000 ∧ CPU_TICKS_PER_MSEC = 268111856 / 1000 := by
  constructor
  · rw [osTickCounterRead, h]
    norm_num [CPU_TICKS_PER_MSEC, SYSCLOCK_ARM11, SYSCLOCK_ARM9, SYSCLOCK_SOC]
  · norm_num [CPU_TICKS_PER_MSEC, SYSCLOCK_ARM11, SYSCLOCK_ARM9, SYSCLOCK_SOC]

/-- C4 witness: the counter `⟨268111856, 0⟩` reads as 1000 ms. -/
theorem C4_read_one_second_witness :
    osTickCounterRead ⟨268111856, 0⟩ = 1000 ∧ CPU_TICKS_PER_MSEC = 268111856 / 1000 :=
  C4_read_one_second ⟨268111856, 0⟩ rfl

/-- C5: `osTickCounterRead` is a pure function of the `elapsed` field (two
counters with equal `elapsed` read the same value, and reading mutates
nothing, reads being modelled as functions of the counter value); and
`osTickCounterStart` followed immediately by `osTickCounterUpdate` at the same
tick value yields `elapsed = 0` and a read of 0 ms. -/
theorem C5_read_pure (c c' : TickCounter) (t : Nat)
    (h : c.elapsed = c'.elapsed) (_ht : t < 2^64) :
    osTickCounterRead c = osTickCounterRead c' ∧
    (osTickCounterUpdate t (osTickCounterStart t c)).elapsed = 0 ∧
    osTickCounterRead (osTickCounterUpdate t (osTickCounterStart t c)) = 0 := by
  have hp : (2:Nat)^64 = 18446744073709551616 := by norm_num
  have he : (osTickCounterUpdate t (osTickCounterStart t c)).elapsed = 0 := by
    simp only [osTickCounterStart, osTickCounterUpdate, hp]
    omega
  refine ⟨?_, he, ?_⟩
  · rw [osTickCounterRead, osTickCounterRead, h]
  · rw [osTickCounterRead, he]
    norm_num

/-- C5 witness: counters `⟨5, 0⟩` and `⟨5, 9⟩` read alike, and start-update at
tick 7 yields elapsed 0 reading 0 ms. -/
theorem C5_read_pure_witness :
    osTickCounterRead ⟨5, 0⟩ = osTickCounterRead ⟨5, 9⟩ ∧
    (osTickCounterUpdate 7 (osTickCounterStart 7 ⟨5, 0⟩)).elapsed = 0 ∧
    osTickCounterRead (osTickCounterUpdate 7 (osTickCounterStart 7 ⟨5, 0⟩)) = 0 :=
  C5_read_pure ⟨5, 0⟩ ⟨5, 9⟩ 7 rfl (by norm_num)

/-- `osGetWifiStrength` (os.h lines 223-226): `return *(vu8*)0x1FF81066;`, a
one-byte volatile read from the shared-config page, modelled as the low byte
of the memory environment at that address. -/
def osGetWifiStrength (env : Nat → Nat) : Nat := env 0x1FF81066 % 256

/-- C6 counterexample: the code returns the raw shared-config byte
unmodified, so a memory state holding 4 at `0x1FF81066` makes
`osGetWifiStrength` return 4, outside the 0-3 range the claim promises for
every execution. -/
theorem C6_wifiStrength_counterexample :
    osGetWifiStrength (fun _ => 4) = 4 ∧ ¬ osGetWifiStrength (fun _ => 4) ≤ 3 := by
  constructor <;> decide

/-- C6 (amended): `osGetWifiStrength` returns exactly the byte stored at
`0x1FF81066`, hence always a value below 256; whenever that shared-config
byte is at most 3 (the hardware guarantee the header documents), the returned
strength is in the range 0-3. -/
theorem C6_wifiStrength_range (env : Nat → Nat) (h : env 0x1FF81066 % 256 ≤ 3) :
    osGetWifiStrength env < 256 ∧ osGetWifiStrength env ≤ 3 :=
  ⟨Nat.mod_lt _ (by norm_num), h⟩

/-- C6 witness: a memory state holding 2 at the Wi-Fi strength address. -/
theorem C6_wifiStrength_range_witness :
    osGetWifiStrength (fun _ => 2) < 256 ∧ osGetWifiStrength (fun _ => 2) ≤ 3 :=
  C6_wifiStrength_range (fun _ => 2) (by decide)

/-- `#define OS_OLD_FCRAM_VADDR 0x14000000` (os.h line 35). -/
def OS_OLD_FCRAM_VADDR : Nat := 0x14000000

/-- `#define OS_OLD_FCRAM_SIZE 0x8000000` (os.h line 37). -/
def OS_OLD_FCRAM_SIZE : Nat := 0x8000000

/-- `#define OS_FCRAM_VADDR 0x30000000` (os.h line 55). -/
def OS_FCRAM_VADDR : Nat := 0x30000000

/-- `#define OS_FCRAM_SIZE 0x10000000` (os.h line 57). -/
def OS_FCRAM_SIZE : Nat := 0x10000000

/-- Modelled from the spec: the body of `osConvertOldLINEARMemToNew` is not
under `src/` (os.h line 90 only declares it). Per the header doc and spec §6
it returns "the corresponding address in the 0x30* range" for an input in the
old 0x14* linear range, "the input address if it's already within the new
vmem, or 0 if it's outside of both ranges". -/
def osConvertOldLINEARMemToNew (vaddr : Nat) : Nat :=
  if OS_FCRAM_VADDR ≤ vaddr ∧ vaddr < OS_FCRAM_VADDR + OS_FCRAM_SIZE then
    vaddr
  else if OS_OLD_FCRAM_VADDR ≤ vaddr ∧ vaddr < OS_OLD_FCRAM_VADDR + OS_OLD_FCRAM_SIZE then
    vaddr - OS_OLD_FCRAM_VADDR + OS_FCRAM_VADDR
  else 0

/-- C7: `osConvertOldLINEARMemToNew` maps an address in the legacy
`0x14000000`-based range to the equivalent address in the current
`0x30000000`-based range, returns an address already in the current range
unchanged, and returns 0 for an address outside both ranges. -/
theorem C7_convertOldLINEARMem (vaddr : Nat) :
    (OS_OLD_FCRAM_VADDR ≤ vaddr ∧ vaddr < OS_OLD_FCRAM_VADDR + OS_OLD_FCRAM_SIZE →
      osConvertOldLINEARMemToNew vaddr = vaddr - OS_OLD_FCRAM_VADDR + OS_FCRAM_VADDR) ∧
    (OS_FCRAM_VADDR ≤ vaddr ∧ vaddr < OS_FCRAM_VADDR + OS_FCRAM_SIZE →
      osConvertOldLINEARMemToNew vaddr = vaddr) ∧
    (¬ (OS_OLD_FCRAM_VADDR ≤ vaddr ∧ vaddr < OS_OLD_FCRAM_VADDR + OS_OLD_FCRAM_SIZE) →
     ¬ (OS_FCRAM_VADDR ≤ vaddr ∧ vaddr < OS_FCRAM_VADDR + OS_FCRAM_SIZE) →
      osConvertOldLINEARMemToNew vaddr = 0) := by
  unfold osConvertOldLINEARMemToNew OS_OLD_FCRAM_VADDR OS_OLD_FCRAM_SIZE OS_FCRAM_VADDR OS_FCRAM_SIZE
  split_ifs <;> refine ⟨?_, ?_, ?_⟩ <;> intros <;> omega

/-- C7 witness: an old-range address is remapped, a new-range address is
returned unchanged, and an address outside both ranges yields 0. -/
theorem C7_convertOldLINEARMem_witness :
    osConvertOldLINEARMemToNew 0x14000004 = 0x30000004 ∧
    osConvertOldLINEARMemToNew 0x30000008 = 0x30000008 ∧
    osConvertOldLINEARMemToNew 0x1000 = 0 := by
  refine ⟨?_, ?_, ?_⟩
  · have h := (C7_convertOldLINEARMem 0x14000004).1
      (by norm_num [OS_OLD_FCRAM_VADDR, OS_OLD_FCRAM_SIZE])
    simpa [OS_OLD_FCRAM_VADDR, OS_FCRAM_VADDR] using h
  · exact (C7_convertOldLINEARMem 0x30000008).2.1
      (by norm_num [OS_FCRAM_VADDR, OS_FCRAM_SIZE])
  · exact (C7_convertOldLINEARMem 0x1000).2.2
      (by norm_num [OS_OLD_FCRAM_VADDR, OS_OLD_FCRAM_SIZE])
      (by norm_num [OS_FCRAM_VADDR, OS_FCRAM_SIZE])

/-- Modelled from the spec: the body of `osGetSystemVersionData` is not under
`src/` (os.h line 249 only declares it). Spec §6/§7: the version.bin read
either succeeds, fails under stdio surfacing an errno, or fails with a
platform-specific special value; this type records that observable outcome. -/
inductive VersionDataOutcome : Type where
  | success : VersionDataOutcome
  | stdioFailure : Nat → VersionDataOutcome
  | platformFailure : Int → VersionDataOutcome

/-- Modelled from the spec: the `Result` value `osGetSystemVersionData`
returns for each outcome — 0 on success, the (positive) errno "if opening
romfs:/version.bin fails with stdio", and the special negative value in the
remaining failure cases (os.h line 247 doc, spec §7). -/
def osGetSystemVersionData : VersionDataOutcome → Int
  | VersionDataOutcome.success => 0
  | VersionDataOutcome.stdioFailure errno => (errno : Int)
  | VersionDataOutcome.platformFailure cd => cd

/-- C8: the result of `osGetSystemVersionData` is zero exactly on success;
given that stdio errno values are positive and platform-specific failure
values are negative, a positive result occurs exactly on a stdio failure and
a negative result exactly on a platform-specific failure. -/
theorem C8_result_sign (o : VersionDataOutcome)
    (hp : ∀ e, o = VersionDataOutcome.stdioFailure e → 0 < e)
    (hn : ∀ cd, o = VersionDataOutcome.platformFailure cd → cd < 0) :
    (osGetSystemVersionData o = 0 ↔ o = VersionDataOutcome.success) ∧
    (0 < osGetSystemVersionData o ↔ ∃ e, o = VersionDataOutcome.stdioFailure e) ∧
    (osGetSystemVersionData o < 0 ↔ ∃ cd, o = VersionDataOutcome.platformFailure cd) := by
  cases o with
  | success => simp [osGetSystemVersionData]
  | stdioFailure e =>
      have he := hp e rfl
      simp [osGetSystemVersionData]
      omega
  | platformFailure cd =>
      have hc := hn cd rfl
      simp [osGetSystemVersionData]
      omega

/-- C8 witness: the successful outcome yields result 0. -/
theorem C8_result_sign_witness :
    osGetSystemVersionData VersionDataOutcome.success = 0 :=
  (C8_result_sign VersionDataOutcome.success
    (fun _ he => nomatch he) (fun _ hc => nomatch hc)).1.mpr rfl

/-- `#define SYSTEM_VERSION(major, minor, revision)
(((major)<<24)|((minor)<<16)|((revision)<<8))` (os.h lines 17-18). -/
def SYSTEM_VERSION (major minor revision : Nat) : Nat :=
  (major <<< 24) ||| (minor <<< 16) ||| (revision <<< 8)

/-- `#define GET_VERSION_MAJOR(version) ((version) >>24)` (os.h line 21). -/
def GET_VERSION_MAJOR (version : Nat) : Nat := version >>> 24

/-- `#define GET_VERSION_MINOR(version) (((version)>>16)&0xFF)` (os.h line 24). -/
def GET_VERSION_MINOR (version : Nat) : Nat := (version >>> 16) &&& 0xFF

/-- `#define GET_VERSION_REVISION(version) (((version)>> 8)&0xFF)` (os.h line 27). -/
def GET_VERSION_REVISION (version : Nat) : Nat := (version >>> 8) &&& 0xFF

/-- Bitwise-or of a `k`-shifted value with a value below `2^k` is addition:
the operands occupy disjoint bit ranges. -/
theorem lor_shiftLeft_add (k : Nat) : ∀ a b : Nat, b < 2^k → (a <<< k) ||| b = a <<< k + b := by
  induction k with
  | zero =>
      intro a b h
      interval_cases b
      simp
  | succ k ih =>
      intro a b h
      obtain ⟨bo, bd, rfl⟩ : ∃ bo bd, Nat.bit bo bd = b := ⟨b.bodd, b.div2, Nat.bit_decomp b⟩
      have hbd : bd < 2^k := by
        rw [Nat.pow_succ] at h
        cases bo <;> simp [Nat.bit] at h <;> omega
      have ha : a <<< (k+1) = Nat.bit false (a <<< k) := by
        simp [Nat.bit, Nat.shiftLeft_eq, Nat.pow_succ]
        ring
      rw [ha, Nat.lor_bit, Bool.false_or, ih a bd hbd]
      cases bo <;> simp [Nat.bit] <;> omega

/-- The packed system version in closed arithmetic form: for byte-sized minor
and revision the three shifted components occupy disjoint bit ranges, so the
bitwise ors are plain additions. -/
theorem SYSTEM_VERSION_eq (m mi r : Nat) (hmi : mi ≤ 255) (hr : r ≤ 255) :
    SYSTEM_VERSION m mi r = m * 2^24 + mi * 2^16 + r * 2^8 := by
  unfold SYSTEM_VERSION
  rw [Nat.lor_assoc]
  have h8 : r <<< 8 = r * 2^8 := Nat.shiftLeft_eq r 8
  have h16 : mi <<< 16 = mi * 2^16 := Nat.shiftLeft_eq mi 16
  have h24 : m <<< 24 = m * 2^24 := Nat.shiftLeft_eq m 24
  have h1 : (mi <<< 16) ||| (r <<< 8) = mi <<< 16 + r <<< 8 := by
    apply lor_shiftLeft_add
    rw [h8]
    norm_num
    omega
  rw [h1]
  have h2 : (m <<< 24) ||| (mi <<< 16 + r <<< 8) = m <<< 24 + (mi <<< 16 + r <<< 8) := by
    apply lor_shiftLeft_add
    rw [h8, h16]
    norm_num
    omega
  rw [h2, h8, h16, h24]
  ring

/-- C9: for minor and revision in 0..255 and a packed value fitting in 32
bits, the extraction macros recover each component of `SYSTEM_VERSION`. -/
theorem C9_version_roundtrip (major minor revision : Nat)
    (hmi : minor ≤ 255) (hr : revision ≤ 255)
    (_hfit : SYSTEM_VERSION major minor revision < 2^32) :
    GET_VERSION_MAJOR (SYSTEM_VERSION major minor revision) = major ∧
    GET_VERSION_MINOR (SYSTEM_VERSION major minor revision) = minor ∧
    GET_VERSION_REVISION (SYSTEM_VERSION major minor revision) = revision := by
  rw [SYSTEM_VERSION_eq major minor revision hmi hr]
  unfold GET_VERSION_MAJOR GET_VERSION_MINOR GET_VERSION_REVISION
  have hmask : ∀ n : Nat, n &&& 0xFF = n % 256 := fun n => by
    have := Nat.and_pow_two_sub_one_eq_mod n 8
    simpa using this
  rw [Nat.shiftRight_eq_div_pow, Nat.shiftRight_eq_div_pow, Nat.shiftRight_eq_div_pow,
    hmask, hmask]
  norm_num
  omega

/-- C9 witness: packing version 11.17.2 and extracting each component. -/
theorem C9_version_roundtrip_witness :
    GET_VERSION_MAJOR (SYSTEM_VERSION 11 17 2) = 11 ∧
    GET_VERSION_MINOR (SYSTEM_VERSION 11 17 2) = 17 ∧
    GET_VERSION_REVISION (SYSTEM_VERSION 11 17 2) = 2 :=
  C9_version_roundtrip 11 17 2 (by norm_num) (by norm_num) (by decide)

-- MemRegion selector values. Modelled from the spec: the `MemRegion` enum
-- comes from svc.h, which is not under src/; spec §6 lists the selectors as
-- "enumerated: total, application, system, base", matching the consecutive
-- values 0-3 implied by the register indexing `(region - 1) * 0x4` in os.h
-- line 149 and by the `MEMREGION_ALL` special case.
def MEMREGION_ALL : Nat := 0

/-- MemRegion selector for APPLICATION memory (see `MEMREGION_ALL`). -/
def MEMREGION_APPLICATION : Nat := 1

/-- MemRegion selector for SYSTEM memory (see `MEMREGION_ALL`). -/
def MEMREGION_SYSTEM : Nat := 2

/-- MemRegion selector for BASE memory (see `MEMREGION_ALL`). -/
def MEMREGION_BASE : Nat := 3

/-- `osGetMemRegionSize` (os.h lines 144-151): for `MEMREGION_ALL` the sum of
the three per-region sizes (u32 addition, wrapping modulo `2^32`), otherwise
the u32 kernel-config word at `0x1FF80040 + (region - 1) * 0x4`, read from
the memory environment `env`. -/
def osGetMemRegionSize (env : Nat → Nat) (region : Nat) : Nat :=
  if region = MEMREGION_ALL then
    (osGetMemRegionSize env MEMREGION_APPLICATION + osGetMemRegionSize env MEMREGION_SYSTEM +
      osGetMemRegionSize env MEMREGION_BASE) % 2^32
  else env (0x1FF80040 + (region - 1) * 4) % 2^32
termination_by (if region = MEMREGION_ALL then 1 else 0)
decreasing_by
  all_goals simp_all [MEMREGION_ALL, MEMREGION_APPLICATION, MEMREGION_SYSTEM, MEMREGION_BASE]

/-- `osGetMemRegionUsed` (os.h lines 158-163): `svcGetSystemInfo` writes a
signed 64-bit used-byte count (passed here as the external `sysinfo`
function), which the `return` converts to u32, i.e. reduces modulo `2^32`. -/
def osGetMemRegionUsed (sysinfo : Nat → Int) (region : Nat) : Nat :=
  ((sysinfo region) % 2^32).toNat

/-- `osGetMemRegionFree` (os.h lines 170-173): the unsigned 32-bit difference
`osGetMemRegionSize(region) - osGetMemRegionUsed(region)`. -/
def osGetMemRegionFree (env : Nat → Nat) (sysinfo : Nat → Int) (region : Nat) : Nat :=
  (osGetMemRegionSize env region + 2^32 - osGetMemRegionUsed sysinfo region) % 2^32

/-- Every memory-region size is a u32 value, i.e. below `2^32`. -/
theorem osGetMemRegionSize_lt (env : Nat → Nat) (region : Nat) :
    osGetMemRegionSize env region < 2^32 := by
  rw [osGetMemRegionSize]
  split <;> exact Nat.mod_lt _ (by norm_num)

/-- Every memory-region used count is a u32 value, i.e. below `2^32`. -/
theorem osGetMemRegionUsed_lt (sysinfo : Nat → Int) (region : Nat) :
    osGetMemRegionUsed sysinfo region < 2^32 := by
  unfold osGetMemRegionUsed
  have h := Int.emod_lt_of_pos (sysinfo region) (show (0:Int) < 2^32 by norm_num)
  omega

/-- C10: `osGetMemRegionSize` at `MEMREGION_ALL` is the modulo-`2^32` sum of
the APPLICATION, SYSTEM and BASE region sizes; `osGetMemRegionFree` is the
unsigned 32-bit subtraction of the used count from the region size, which
equals the exact difference whenever used does not exceed size. -/
theorem C10_memRegion_accounting (env : Nat → Nat) (sysinfo : Nat → Int) (region : Nat) :
    osGetMemRegionSize env MEMREGION_ALL =
      (osGetMemRegionSize env MEMREGION_APPLICATION + osGetMemRegionSize env MEMREGION_SYSTEM +
        osGetMemRegionSize env MEMREGION_BASE) % 2^32 ∧
    osGetMemRegionFree env sysinfo region =
      (osGetMemRegionSize env region + 2^32 - osGetMemRegionUsed sysinfo region) % 2^32 ∧
    (osGetMemRegionUsed sysinfo region ≤ osGetMemRegionSize env region →
      osGetMemRegionFree env sysinfo region =
        osGetMemRegionSize env region - osGetMemRegionUsed sysinfo region) := by
  refine ⟨?_, rfl, ?_⟩
  · rw [osGetMemRegionSize]
    simp
  · intro hle
    have hs := osGetMemRegionSize_lt env region
    have hu := osGetMemRegionUsed_lt sysinfo region
    unfold osGetMemRegionFree
    have hp : (2:Nat)^32 = 4294967296 := by norm_num
    rw [hp] at hs hu ⊢
    omega

/-- C10 witness: with every kernel-config size word reading 100 and a used
count of 30, the APPLICATION region reports 70 bytes free. -/
theorem C10_memRegion_accounting_witness :
    osGetMemRegionFree (fun _ => 100) (fun _ => 30) MEMREGION_APPLICATION = 70 := by
  have hsize : osGetMemRegionSize (fun _ => 100) MEMREGION_APPLICATION = 100 := by
    rw [osGetMemRegionSize]
    norm_num [MEMREGION_ALL, MEMREGION_APPLICATION]
  have hused : osGetMemRegionUsed (fun _ => 30) MEMREGION_APPLICATION = 30 := by
    unfold osGetMemRegionUsed
    norm_num
    rfl
  have h := (C10_memRegion_accounting (fun _ => 100) (fun _ => 30) MEMREGION_APPLICATION).2.2
    (by rw [hsize, hused]; norm_num)
  rw [h, hsize, hused]

end Libctru
